import Mathlib

/-!
Verification of the S3 cleanup tool (`s3cleanup.py`): a shallow embedding of
its filter-and-replace pipeline (locator parsing, content decode, line
filtering, replace guard, gzip round-trip, upload-and-verify protocol, and
the batch loop), together with theorems settling the specified properties.

Python library collaborators (the `gzip` module, the UTF-8 codec, and the
S3 client) are external to the repository; they are modelled abstractly by
a `PyLibs` structure of operations, with their documented contracts stated
as separate `Lawful…` predicates so that theorems can also speak about what
the code does when a library check fails.  Bytes are modelled as `List Nat`.
-/

set_option autoImplicit false

namespace S3Cleanup

/-- Python's substring test `needle in haystack` on character lists:
true iff `needle` occurs contiguously in the list. -/
def pyInChars (needle : List Char) : List Char → Bool
  | [] => needle.isEmpty
  | c :: rest => needle.isPrefixOf (c :: rest) || pyInChars needle rest

/-- Python's `needle in haystack` on strings. -/
def pyIn (needle haystack : String) : Bool :=
  pyInChars needle.data haystack.data

/-- Python's `s.startswith(pre)`. -/
def pyStartsWith (s pre : String) : Bool :=
  pre.data.isPrefixOf s.data

/-- Python's `s.endswith(suf)`. -/
def pyEndsWith (s suf : String) : Bool :=
  suf.data.isSuffixOf s.data

/-- Python's `str.isspace` character class restricted to ASCII whitespace
(the characters stripped by `str.strip()` in the log data handled here). -/
def pyIsSpace (c : Char) : Bool :=
  c = ' ' || c = '\t' || c = '\n' || c = '\r' || c = '\x0B' || c = '\x0C'

/-- Embeds the Python test `line.strip() == ''`: the line is empty or
consists only of whitespace characters. -/
def isBlankLine (line : String) : Bool :=
  line.data.all pyIsSpace

/-- Python's `s.upper()` (ASCII case mapping, which is all the tool uses:
it only compares the result against the literal "US"). -/
def pyUpper (s : String) : String :=
  String.mk (s.data.map Char.toUpper)

/-- Python's `content.split('\n')` on character lists: the pieces between
newline characters, so `n` newlines give `n + 1` pieces. -/
def splitNlChars : List Char → List (List Char)
  | [] => [[]]
  | c :: cs =>
    if c = '\n' then [] :: splitNlChars cs
    else
      match splitNlChars cs with
      | [] => [[c]]
      | h :: t => (c :: h) :: t

/-- Python's `content.split('\n')` on strings. -/
def pySplitNl (s : String) : List String :=
  (splitNlChars s.data).map String.mk

/-- Python's `'\n'.join(lines)`. -/
def joinNl : List String → String
  | [] => ""
  | [s] => s
  | s :: s' :: rest => s ++ "\n" ++ joinNl (s' :: rest)

/-! ## The line filter (`_filter_content`, s3cleanup.py lines 248-304) -/

/-- The country synonym table for the US (s3cleanup.py lines 258-260). -/
def us_variations : List String :=
  ["US", "USA", "United States", "United States of America"]

/-- The four syntactic shapes a line is tested against for a single
country value (s3cleanup.py lines 276-279 and 285-288): quoted JSON with a
space, compact quoted JSON, unquoted field name with quoted value, and the
fully loose form. -/
def matchesShapes (value line : String) : Bool :=
  pyIn ("\"ClientGeoCountry\": \"" ++ value ++ "\"") line ||
  pyIn ("\"ClientGeoCountry\":\"" ++ value ++ "\"") line ||
  pyIn ("ClientGeoCountry: \"" ++ value ++ "\"") line ||
  pyIn ("ClientGeoCountry: " ++ value) line

/-- The per-line predicate of `_filter_content` (s3cleanup.py lines
270-289): if the uppercased target is "US" the line is tested against
every US synonym, otherwise only against the target value itself. -/
def lineMatches (country_to_keep line : String) : Bool :=
  if pyUpper country_to_keep = "US" then
    us_variations.any (fun v => matchesShapes v line)
  else
    matchesShapes country_to_keep line

/-- The loop of `_filter_content` (s3cleanup.py lines 262-295) over the
split lines.  Returns (filtered lines, kept count, removed count, total
data lines): a blank line (`line.strip() == ''`) is kept and counted
nowhere; every other line is counted in the total and either kept and
counted or removed and counted. -/
def filterLines (country_to_keep : String) : List String → List String × Nat × Nat × Nat
  | [] => ([], 0, 0, 0)
  | line :: rest =>
    let r := filterLines country_to_keep rest
    if isBlankLine line then
      (line :: r.1, r.2.1, r.2.2.1, r.2.2.2)
    else if lineMatches country_to_keep line then
      (line :: r.1, r.2.1 + 1, r.2.2.1, r.2.2.2 + 1)
    else
      (r.1, r.2.1, r.2.2.1 + 1, r.2.2.2 + 1)

/-- Embeds `_filter_content` (s3cleanup.py lines 248-304): split on newlines,
filter, and return the rejoined text with the kept count (the removed and
total counts are computed by the same loop but only printed). -/
def filter_content (content country_to_keep : String) : String × Nat :=
  let r := filterLines country_to_keep (pySplitNl content)
  (joinNl r.1, r.2.1)

/-! ## External library collaborators

The Python standard library functions the pipeline calls (`gzip.GzipFile`
compression, `gzip.decompress`, `str.encode('utf-8')`,
`bytes.decode('utf-8')`) are outside the repository.  They are modelled as
the operations of a `PyLibs` structure; their documented contracts (gzip
round-trip, UTF-8 round-trip) are stated as separate predicates so that a
theorem can assume exactly the contract it needs, and so that the
behaviour of the repository's own checks on a *failing* library call is
also statable. -/

structure PyLibs where
  /-- Models `text.encode('utf-8')`. -/
  utf8Enc : String → List Nat
  /-- Models `bytes.decode('utf-8')`; `none` models `UnicodeDecodeError`. -/
  utf8Dec : List Nat → Option String
  /-- gzip compression of a byte sequence, as a function of the
  compression level, the embedded mtime header field, and the data. -/
  gzipCompress : Nat → Nat → List Nat → List Nat
  /-- Models `gzip.decompress`; `none` models `BadGzipFile`/corrupt stream. -/
  gzipDecompress : List Nat → Option (List Nat)

/-- The gzip module's documented contract: decompressing a compressed
stream gives back the original data, whatever level and mtime were used. -/
def PyLibs.LawfulGzip (lib : PyLibs) : Prop :=
  ∀ lvl mtime data, lib.gzipDecompress (lib.gzipCompress lvl mtime data) = some data

/-- The UTF-8 codec's documented contract: decoding an encoded string
gives back the string. -/
def PyLibs.LawfulUtf8 (lib : PyLibs) : Prop :=
  ∀ s, lib.utf8Dec (lib.utf8Enc s) = some s

/-- Models the `gzip.GzipFile(..., compresslevel, mtime)` write path: the stream
embeds `mtime` when one is given, and the current clock `now` otherwise
(the Python default).  `s3cleanup.py` always passes `mtime=0`. -/
def gzipFileCompress (lib : PyLibs) (now compresslevel : Nat) (mtime : Option Nat)
    (data : List Nat) : List Nat :=
  lib.gzipCompress compresslevel (mtime.getD now) data

/-! ## Locator parsing (`parse_s3_uri`, s3cleanup.py lines 29-41)

`urllib.parse.urlparse` is modelled for the locators this tool receives
(no query, fragment or userinfo markers): for a string with scheme prefix
`s3://`, the netloc is everything up to the next `/` and the path is the
rest. -/

/-- Embeds `parse_s3_uri` (s3cleanup.py lines 29-41): reject a missing `s3://`
prefix, then return `urlparse(...).netloc` and
`urlparse(...).path.lstrip('/')`.  Note the code has no check that the
netloc (bucket) is non-empty. -/
def parse_s3_uri (s3_uri : String) : Except String (String × String) :=
  if pyStartsWith s3_uri "s3://" then
    let rest := s3_uri.data.drop 5
    let bucket := String.mk (rest.takeWhile (fun c => c != '/'))
    let path := rest.dropWhile (fun c => c != '/')
    .ok (bucket, String.mk (path.dropWhile (fun c => c == '/')))
  else
    .error "Invalid S3 URI format: URI must start with s3://"

/-! ## The per-object protocol (`process_file` and helpers)

Storage reads and the post-upload re-read are responses of the external S3
client; they enter the model as `Except`-valued parameters (`.error`
models a raised `ClientError`).  Storage writes are tracked explicitly:
each function returns the list of `put_object` calls it performed. -/

/-- Embeds `_download_file` (s3cleanup.py lines 233-246): take the `get_object`
response, decompress it when the key ends in `.gz`, and decode as UTF-8.
Any failure raises (is an `.error`). -/
def download_file (lib : PyLibs) (file_key : String)
    (rawResult : Except String (List Nat)) : Except String String :=
  match rawResult with
  | .error e => .error ("Failed to download file: " ++ e)
  | .ok raw =>
    let decompressed : Except String (List Nat) :=
      if pyEndsWith file_key ".gz" then
        match lib.gzipDecompress raw with
        | none => .error "BadGzipFile"
        | some d => .ok d
      else .ok raw
    match decompressed with
    | .error e => .error e
    | .ok content =>
      match lib.utf8Dec content with
      | none => .error "UnicodeDecodeError"
      | some text => .ok text

/-- Embeds `_gzip_content` (s3cleanup.py lines 306-344): UTF-8 encode, compress
with `compresslevel=6, mtime=0`, then report the compression ratio — a
computation (line 328) that divides by `len(content_bytes)` and therefore
raises `ZeroDivisionError` whenever the encoded content is empty, re-raised
by the function's own handler as "Failed to compress content: division by
zero" — then immediately decompress in-process and compare against the
original bytes; a mismatch or a decompression failure raises. `now` is the
ambient clock `GzipFile` would embed had `mtime` not been pinned to 0. -/
def gzip_content (lib : PyLibs) (now : Nat) (content : String) :
    Except String (List Nat) :=
  let content_bytes := lib.utf8Enc content
  let compressed_data := gzipFileCompress lib now 6 (some 0) content_bytes
  if content_bytes.length = 0 then
    .error "Failed to compress content: division by zero"
  else
    match lib.gzipDecompress compressed_data with
    | none => .error "Compression validation failed"
    | some test_decompress =>
      if test_decompress = content_bytes then .ok compressed_data
      else .error "Compression integrity check failed"

/-- Embeds `_upload_file` (s3cleanup.py lines 462-512): check the payload is
valid gzip, `put_object` it (recorded in the returned write list), then
verify by re-fetching the object (`rereadResult` is that `get_object`
response) and checking the re-read bytes decompress and decode as UTF-8.
The code performs NO byte comparison between the re-read bytes and the
uploaded payload. -/
def upload_file (lib : PyLibs) (file_key : String) (content : List Nat)
    (rereadResult : Except String (List Nat)) :
    Except String Unit × List (String × List Nat) :=
  match lib.gzipDecompress content with
  | none => (.error "Invalid gzip content", [])
  | some _ =>
    let writes := [(file_key, content)]
    match rereadResult with
    | .error e => (.error ("Upload verification failed: " ++ e), writes)
    | .ok test_content =>
      match lib.gzipDecompress test_content with
      | none => (.error "Upload verification failed: BadGzipFile", writes)
      | some test_decompressed =>
        match lib.utf8Dec test_decompressed with
        | none => (.error "Upload verification failed: UnicodeDecodeError", writes)
        | some _ => (.ok (), writes)

/-- Embeds `process_file` (s3cleanup.py lines 67-140): download, filter, guard
(skip when fewer than `min_data_lines` lines were kept), compress, upload
and verify.  The whole body is inside `try: ... except Exception: return
False`, so every error path yields `false`, exactly like a guard skip.
Returns the boolean the Python function returns, paired with the list of
storage writes performed.  The optional local-analysis-file branch
(`save_local_files`) only writes local files and is omitted, as in a run
with `save_local_files=False`. -/
def process_file (lib : PyLibs) (file_key : String)
    (rawResult : Except String (List Nat)) (country_to_keep : String)
    (min_data_lines : Nat) (now : Nat)
    (rereadResult : Except String (List Nat)) :
    Bool × List (String × List Nat) :=
  match download_file lib file_key rawResult with
  | .error _ => (false, [])
  | .ok file_content =>
    let fr := filter_content file_content country_to_keep
    if fr.2 < min_data_lines then
      (false, [])
    else
      match gzip_content lib now fr.1 with
      | .error _ => (false, [])
      | .ok compressed_content =>
        match upload_file lib file_key compressed_content rereadResult with
        | (.error _, w) => (false, w)
        | (.ok _, w) => (true, w)

/-! ## The batch loop (`process_all_files_in_path`, s3cleanup.py 142-231) -/

/-- One enumerated object together with the storage responses its
processing will receive: the initial `get_object` body and the
post-upload verification `get_object` body. -/
structure BatchFile where
  key : String
  rawResult : Except String (List Nat)
  rereadResult : Except String (List Nat)

/-- The per-file loop of `process_all_files_in_path` (s3cleanup.py lines
191-213): run `process_file` on each object; a `True` return increments
`successful`, a `False` return increments `skipped`.  The `except` branch
that increments `failed` fires only if `process_file` itself raises, which
cannot happen: `process_file` catches every `Exception` internally and
returns `False` (line 138-140), so `failed` is never incremented here.
Returns (successful, skipped, failed, per-file results). -/
def process_all_files_loop (lib : PyLibs) (country_to_keep : String)
    (min_data_lines : Nat) (now : Nat) :
    List BatchFile → Nat × Nat × Nat × List (String × Bool)
  | [] => (0, 0, 0, [])
  | f :: fs =>
    let ok := (process_file lib f.key f.rawResult country_to_keep
      min_data_lines now f.rereadResult).1
    let r := process_all_files_loop lib country_to_keep min_data_lines now fs
    if ok then (r.1 + 1, r.2.1, r.2.2.1, (f.key, true) :: r.2.2.2)
    else (r.1, r.2.1 + 1, r.2.2.1, (f.key, false) :: r.2.2.2)

/-! ## A concrete library instance for witnesses

`witLibs` satisfies both library contracts: "UTF-8" encoding maps each
character to its code point, and "gzip" compression prepends the level and
mtime as a two-entry header.  `badLibs` is the same except its
decompressor always fails, exercising the code's integrity checks. -/

def witEnc (s : String) : List Nat :=
  s.data.map Char.toNat

def witDec (bytes : List Nat) : Option String :=
  let s := String.mk (bytes.map Char.ofNat)
  if witEnc s = bytes then some s else none

def witLibs : PyLibs :=
  { utf8Enc := witEnc
    utf8Dec := witDec
    gzipCompress := fun lvl mtime data => lvl :: mtime :: data
    gzipDecompress := fun bytes =>
      match bytes with
      | _ :: _ :: data => some data
      | _ => none }

def badLibs : PyLibs :=
  { witLibs with gzipDecompress := fun _ => none }

/-! ## Helper lemmas -/

theorem mk_data (s : String) : String.mk s.data = s := rfl

theorem witLibs_lawfulGzip : PyLibs.LawfulGzip witLibs :=
  fun _ _ _ => rfl

theorem witLibs_lawfulUtf8 : PyLibs.LawfulUtf8 witLibs := by
  intro s
  show witDec (witEnc s) = some s
  unfold witDec
  have h1 : (witEnc s).map Char.ofNat = s.data := by
    unfold witEnc
    rw [List.map_map]
    have h2 : Char.ofNat ∘ Char.toNat = id := funext Char.ofNat_toNat
    rw [h2, List.map_id]
  rw [h1, mk_data]
  simp

theorem takeWhile_until_slash (a b : List Char) (h : '/' ∉ a) :
    List.takeWhile (fun c => c != '/') (a ++ '/' :: b) = a := by
  induction a with
  | nil => simp [List.takeWhile_cons]
  | cons c t ih =>
    have hc : c ≠ '/' := fun he => h (he ▸ List.mem_cons_self c t)
    have ht : '/' ∉ t := fun hm => h (List.mem_cons_of_mem c hm)
    simp only [List.cons_append, List.takeWhile_cons, bne_iff_ne.mpr hc, if_true]
    rw [ih ht]

theorem dropWhile_until_slash (a b : List Char) (h : '/' ∉ a) :
    List.dropWhile (fun c => c != '/') (a ++ '/' :: b) = '/' :: b := by
  induction a with
  | nil => simp [List.dropWhile_cons]
  | cons c t ih =>
    have hc : c ≠ '/' := fun he => h (he ▸ List.mem_cons_self c t)
    have ht : '/' ∉ t := fun hm => h (List.mem_cons_of_mem c hm)
    simp only [List.cons_append, List.dropWhile_cons, bne_iff_ne.mpr hc, if_true]
    exact ih ht

theorem gzip_content_of_lawful (lib : PyLibs) (hg : lib.LawfulGzip) (now : Nat)
    (content : String) (hne : lib.utf8Enc content ≠ []) :
    gzip_content lib now content = .ok (lib.gzipCompress 6 0 (lib.utf8Enc content)) := by
  have hlen : ¬ (lib.utf8Enc content).length = 0 := by
    simpa [List.length_eq_zero] using hne
  unfold gzip_content gzipFileCompress
  simp only [Option.getD_some, hg 6 0 (lib.utf8Enc content)]
  rw [if_neg hlen]
  simp

theorem upload_file_writes (lib : PyLibs) (k : String) (b d : List Nat)
    (h : lib.gzipDecompress b = some d) (r : Except String (List Nat)) :
    (upload_file lib k b r).2 = [(k, b)] := by
  unfold upload_file
  simp only [h]
  cases r with
  | error e => simp
  | ok t =>
    cases hd : lib.gzipDecompress t with
    | none => simp [hd]
    | some dd =>
      cases hu : lib.utf8Dec dd with
      | none => simp [hd, hu]
      | some ss => simp [hd, hu]

theorem upload_file_ok (lib : PyLibs) (k : String) (b : List Nat)
    (r : Except String (List Nat)) (w : List (String × List Nat))
    (h : upload_file lib k b r = (.ok (), w)) :
    ∃ rr dd ss, r = .ok rr ∧ lib.gzipDecompress rr = some dd ∧ lib.utf8Dec dd = some ss := by
  unfold upload_file at h
  cases hb : lib.gzipDecompress b with
  | none => simp [hb] at h
  | some d0 =>
    simp only [hb] at h
    cases r with
    | error e => simp at h
    | ok t =>
      cases hd : lib.gzipDecompress t with
      | none => simp [hd] at h
      | some dd =>
        simp only [hd] at h
        cases hu : lib.utf8Dec dd with
        | none => simp [hu] at h
        | some ss => exact ⟨t, dd, ss, rfl, hd, hu⟩

/-! ## Claim theorems -/

/-- C4 counterexample: an input with the `s3://` scheme but an empty
container component does NOT fail; `parse_s3_uri` returns it successfully
with an empty bucket string. -/
theorem c4_counterexample :
    parse_s3_uri "s3:///path" = .ok ("", "path") := rfl

/-- C4 (amended): parsing fails with an error when the scheme prefix is
missing, but an empty container is not rejected; for input
`s3://container/path` whose container has no slash, it returns the
container and the path with all leading slashes removed. -/
theorem c4_amended_thm (s container path : String) :
    (pyStartsWith s "s3://" = false → ∃ e, parse_s3_uri s = .error e)
    ∧ ('/' ∉ container.data →
        parse_s3_uri ("s3://" ++ container ++ "/" ++ path)
          = .ok (container, String.mk (path.data.dropWhile (fun c => c == '/')))) := by
  constructor
  · intro h
    refine ⟨"Invalid S3 URI format: URI must start with s3://", ?_⟩
    unfold parse_s3_uri
    rw [h]
    rfl
  · intro h
    have hdata : ("s3://" ++ container ++ "/" ++ path).data
        = "s3://".data ++ (container.data ++ '/' :: path.data) := by
      simp [String.data_append]
    have hpre : pyStartsWith ("s3://" ++ container ++ "/" ++ path) "s3://" = true := by
      unfold pyStartsWith
      rw [hdata]
      exact List.isPrefixOf_iff_prefix.mpr (List.prefix_append _ _)
    have hdrop : ("s3://" ++ container ++ "/" ++ path).data.drop 5
        = container.data ++ '/' :: path.data := by
      rw [hdata]
      have h5 : ("s3://".data).length = 5 := rfl
      rw [← h5, List.drop_left]
    unfold parse_s3_uri
    rw [hpre]
    simp only [if_true, hdrop, takeWhile_until_slash _ _ h, dropWhile_until_slash _ _ h,
      mk_data]
    rw [List.dropWhile_cons]
    simp

/-- C4 witness: the amended statement at a concrete malformed input and a
concrete well-formed locator. -/
theorem c4_amended_witness :
    (∃ e, parse_s3_uri "http://x/y" = .error e)
    ∧ parse_s3_uri ("s3://" ++ "bucket" ++ "/" ++ "a/b.gz")
        = .ok ("bucket", String.mk ("a/b.gz".data.dropWhile (fun c => c == '/'))) :=
  ⟨(c4_amended_thm "http://x/y" "bucket" "a/b.gz").1 (by decide),
   (c4_amended_thm "http://x/y" "bucket" "a/b.gz").2 (by decide)⟩

/-- C7: with target "US" the filter retains lines carrying any US synonym
in any of the four syntactic shapes and removes a "CA" line; with target
"Canada" only the exact value is accepted, so "Canada" is retained and
"CA" removed. -/
theorem c7_thm :
    filter_content
        "\"ClientGeoCountry\": \"USA\"\n\"ClientGeoCountry\":\"US\"\nClientGeoCountry: \"United States\"\nClientGeoCountry: United States of America\n\"ClientGeoCountry\": \"CA\""
        "US"
      = ("\"ClientGeoCountry\": \"USA\"\n\"ClientGeoCountry\":\"US\"\nClientGeoCountry: \"United States\"\nClientGeoCountry: United States of America", 4)
    ∧ filter_content "ClientGeoCountry: \"Canada\"\nClientGeoCountry: \"CA\"" "Canada"
      = ("ClientGeoCountry: \"Canada\"", 1) :=
  ⟨by decide, by decide⟩

/-- C1 counterexample: a run of `process_file` in which the verification
re-read returns bytes different from the uploaded payload, yet the outcome
is success (`true`): the code never byte-compares the re-read content
against the compressed payload, it only checks that it decompresses and
decodes. -/
theorem c1_counterexample :
    process_file witLibs "f" (.ok (witEnc "\"ClientGeoCountry\": \"US\"")) "US" 1 0
        (.ok (6 :: 0 :: witEnc "zzz"))
      = (true, [("f", 6 :: 0 :: witEnc "\"ClientGeoCountry\": \"US\"")])
    ∧ (6 :: 0 :: witEnc "zzz") ≠ (6 :: 0 :: witEnc "\"ClientGeoCountry\": \"US\"") :=
  ⟨by decide, by decide⟩

/-- C1 (amended): after uploading, the protocol re-fetches the object and
checks only that the re-read bytes decompress as gzip and decode as UTF-8
(any failure, including a failed re-fetch, yields a non-success outcome);
it performs no byte comparison against the uploaded payload, so success
guarantees only that the re-read content was decompressible and decodable. -/
theorem c1_amended_thm (lib : PyLibs) (file_key : String)
    (rawResult : Except String (List Nat)) (country_to_keep : String)
    (min_data_lines now : Nat) (rereadResult : Except String (List Nat))
    (h : (process_file lib file_key rawResult country_to_keep min_data_lines now
      rereadResult).1 = true) :
    ∃ rr dd ss, rereadResult = .ok rr ∧ lib.gzipDecompress rr = some dd
      ∧ lib.utf8Dec dd = some ss := by
  unfold process_file at h
  cases hdl : download_file lib file_key rawResult with
  | error e => simp [hdl] at h
  | ok content =>
    simp only [hdl] at h
    by_cases hk : (filter_content content country_to_keep).2 < min_data_lines
    · simp [hk] at h
    · simp only [if_neg hk] at h
      cases hgz : gzip_content lib now (filter_content content country_to_keep).1 with
      | error e => simp [hgz] at h
      | ok compressed =>
        simp only [hgz] at h
        cases hu : upload_file lib file_key compressed rereadResult with
        | mk fst w =>
          cases fst with
          | error e => simp [hu] at h
          | ok u =>
            cases u
            exact upload_file_ok lib file_key compressed rereadResult w hu

/-- C1 witness: the amended theorem applied at a concrete successful run. -/
theorem c1_amended_witness :
    ∃ rr dd ss, (Except.ok (6 :: 0 :: witEnc "zzz") : Except String (List Nat)) = .ok rr
      ∧ witLibs.gzipDecompress rr = some dd ∧ witLibs.utf8Dec dd = some ss :=
  c1_amended_thm witLibs "g" (.ok (witEnc "\"ClientGeoCountry\": \"USA\"")) "US" 1 0
    (.ok (6 :: 0 :: witEnc "zzz")) (by decide)

/-- C2: when the filter keeps fewer non-blank lines than the configured
minimum, `process_file` terminates with the skip outcome before the
compression and upload steps, and performs no storage write at all. -/
theorem c2_thm (lib : PyLibs) (file_key : String)
    (rawResult : Except String (List Nat)) (country_to_keep : String)
    (min_data_lines now : Nat) (rereadResult : Except String (List Nat))
    (content : String)
    (hdl : download_file lib file_key rawResult = .ok content)
    (hlt : (filter_content content country_to_keep).2 < min_data_lines) :
    process_file lib file_key rawResult country_to_keep min_data_lines now rereadResult
      = (false, []) := by
  unfold process_file
  simp only [hdl]
  simp [hlt]

/-- C2 witness: a concrete rejected run ("hello" keeps 0 lines, minimum 1)
skips with zero writes. -/
theorem c2_witness :
    download_file witLibs "g" (.ok (witEnc "hello")) = .ok "hello"
    ∧ (filter_content "hello" "US").2 < 1
    ∧ process_file witLibs "g" (.ok (witEnc "hello")) "US" 1 0 (.ok []) = (false, []) :=
  ⟨rfl, by decide,
   c2_thm witLibs "g" (.ok (witEnc "hello")) "US" 1 0 (.ok []) "hello"
     rfl (by decide)⟩

/-- C5 counterexample: with minimum 0 the guard approves a result keeping
0 lines (0 >= 0), yet the upload branch is NOT taken and no storage write
occurs: the retained text is empty, so the compression step fails on the
compression-ratio division by zero before any write.  The upload branch
is therefore not taken "exactly when k >= m". -/
theorem c5_counterexample :
    (filter_content "abc" "Canada").2 = 0
    ∧ process_file witLibs "g" (.ok (witEnc "abc")) "Canada" 0 0 (.ok [])
      = (false, []) :=
  ⟨by decide, by decide⟩

/-- C5 (amended): with a successful download and a gzip library meeting
its contract, a storage write occurs exactly when the kept count is at
least the configured minimum AND the retained text encodes to non-empty
bytes — empty retained text makes `_gzip_content` raise on the
compression-ratio division before any write.  The guard check itself
still rejects exactly when kept < minimum (so minimum 0 never skips and
an exactly-equal count is approved), but approval alone does not
guarantee the upload branch runs. -/
theorem c5_amended_thm (lib : PyLibs) (file_key : String)
    (rawResult : Except String (List Nat)) (country_to_keep : String)
    (min_data_lines now : Nat) (rereadResult : Except String (List Nat))
    (content : String) (hg : lib.LawfulGzip)
    (hdl : download_file lib file_key rawResult = .ok content) :
    (process_file lib file_key rawResult country_to_keep min_data_lines now
        rereadResult).2 ≠ []
      ↔ (min_data_lines ≤ (filter_content content country_to_keep).2
          ∧ lib.utf8Enc (filter_content content country_to_keep).1 ≠ []) := by
  unfold process_file
  simp only [hdl]
  by_cases hk : (filter_content content country_to_keep).2 < min_data_lines
  · simp only [if_pos hk]
    constructor
    · intro h
      simp at h
    · intro hr
      exact absurd hr.1 (by omega)
  · simp only [if_neg hk]
    by_cases hne : lib.utf8Enc (filter_content content country_to_keep).1 = []
    · have hgz : gzip_content lib now (filter_content content country_to_keep).1
          = .error "Failed to compress content: division by zero" := by
        unfold gzip_content
        simp [hne]
      simp [hgz, hne]
    · rw [gzip_content_of_lawful lib hg now (filter_content content country_to_keep).1
        hne]
      simp only
      cases hu : upload_file lib file_key
          (lib.gzipCompress 6 0 (lib.utf8Enc (filter_content content country_to_keep).1))
          rereadResult with
      | mk fst w =>
        have hw := upload_file_writes lib file_key
          (lib.gzipCompress 6 0 (lib.utf8Enc (filter_content content country_to_keep).1))
          (lib.utf8Enc (filter_content content country_to_keep).1)
          (hg 6 0 (lib.utf8Enc (filter_content content country_to_keep).1)) rereadResult
        rw [hu] at hw
        simp only at hw
        cases fst with
        | error e => simp [hw, hne]; omega
        | ok u => simp [hw, hne]; omega

/-- C5 witness: the amended statement at a concrete approved run keeping
exactly the minimum (1 = 1) with non-empty retained text. -/
theorem c5_amended_witness :
    (process_file witLibs "g" (.ok (witEnc "\"ClientGeoCountry\": \"US\"")) "US" 1 0
        (.ok [])).2 ≠ []
      ↔ (1 ≤ (filter_content "\"ClientGeoCountry\": \"US\"" "US").2
          ∧ witLibs.utf8Enc (filter_content "\"ClientGeoCountry\": \"US\"" "US").1 ≠ []) :=
  c5_amended_thm witLibs "g" (.ok (witEnc "\"ClientGeoCountry\": \"US\"")) "US" 1 0
    (.ok []) "\"ClientGeoCountry\": \"US\"" witLibs_lawfulGzip rfl

/-- C6 counterexample: encoding the empty string always fails — the
compression-ratio computation divides by the encoded length 0 — so the
round trip "decode(encode(text)) == text" does not hold for every text
input. -/
theorem c6_counterexample :
    gzip_content witLibs 0 "" = .error "Failed to compress content: division by zero"
    ∧ witLibs.utf8Enc "" = [] :=
  ⟨rfl, rfl⟩

/-- C6 (amended): encoding is deterministic unconditionally (mtime is
pinned to 0, so the ambient clock never enters the output); for every
text whose UTF-8 encoding is non-empty, under the gzip and UTF-8 library
contracts the payload is the level-6, mtime-0 compression of the UTF-8
bytes and decoding it through the `.gz` download path reproduces the
exact input text; encoding a text with empty UTF-8 encoding always fails
(division by zero in the compression-ratio computation); and whenever the
in-process decompression of the fresh payload differs from the original
encoded bytes, `gzip_content` fails with an error (the self-check). -/
theorem c6_amended_thm (lib : PyLibs) (now now2 : Nat) (text key : String) :
    gzip_content lib now2 text = gzip_content lib now text
    ∧ (lib.LawfulGzip → lib.LawfulUtf8 → pyEndsWith key ".gz" = true →
        lib.utf8Enc text ≠ [] →
        gzip_content lib now text = .ok (lib.gzipCompress 6 0 (lib.utf8Enc text))
        ∧ download_file lib key
            (.ok (lib.gzipCompress 6 0 (lib.utf8Enc text))) = .ok text)
    ∧ (lib.utf8Enc text = [] → ∃ msg, gzip_content lib now text = .error msg)
    ∧ (lib.gzipDecompress (lib.gzipCompress 6 0 (lib.utf8Enc text))
          ≠ some (lib.utf8Enc text) →
        ∃ msg, gzip_content lib now text = .error msg) := by
  refine ⟨rfl, ?_, ?_, ?_⟩
  · intro hg hu hkey hne
    refine ⟨gzip_content_of_lawful lib hg now text hne, ?_⟩
    unfold download_file
    simp only [hkey, if_true, hg 6 0 (lib.utf8Enc text), hu text]
  · intro he
    refine ⟨"Failed to compress content: division by zero", ?_⟩
    unfold gzip_content
    simp [he]
  · intro hne2
    by_cases he : lib.utf8Enc text = []
    · refine ⟨"Failed to compress content: division by zero", ?_⟩
      unfold gzip_content
      simp [he]
    · have hlen : ¬ (lib.utf8Enc text).length = 0 := by
        simpa [List.length_eq_zero] using he
      unfold gzip_content gzipFileCompress
      cases hd : lib.gzipDecompress (lib.gzipCompress 6 0 (lib.utf8Enc text)) with
      | none => exact ⟨"Compression validation failed", by simp [hlen, hd]⟩
      | some d =>
        have hdne : ¬ (d = lib.utf8Enc text) := fun h2 => hne2 (by rw [hd, h2])
        exact ⟨"Compression integrity check failed", by simp [hlen, hd, hdne]⟩

/-- C6 witness: determinism and the round trip at the non-empty text
"hi", the empty-text failure, and the broken-library self-check, each
obtained from the amended theorem at concrete inputs. -/
theorem c6_amended_witness :
    gzip_content witLibs 7 "hi" = gzip_content witLibs 5 "hi"
    ∧ (gzip_content witLibs 5 "hi" = .ok (witLibs.gzipCompress 6 0 (witLibs.utf8Enc "hi"))
        ∧ download_file witLibs "a.gz"
            (.ok (witLibs.gzipCompress 6 0 (witLibs.utf8Enc "hi"))) = .ok "hi")
    ∧ (∃ msg, gzip_content witLibs 5 "" = .error msg)
    ∧ (∃ msg, gzip_content badLibs 5 "hi" = .error msg) :=
  ⟨(c6_amended_thm witLibs 5 7 "hi" "a.gz").1,
   (c6_amended_thm witLibs 5 7 "hi" "a.gz").2.1 witLibs_lawfulGzip witLibs_lawfulUtf8
     (by decide) (by decide),
   (c6_amended_thm witLibs 5 7 "" "a.gz").2.2.1 rfl,
   (c6_amended_thm badLibs 5 7 "hi" "a.gz").2.2.2 (by decide)⟩

/-- C10: the US synonym branch is selected by case-insensitive comparison
of the target value: any target whose uppercasing is "US" filters exactly
like the literal target "US", with identical retained text and counts. -/
theorem c10_thm (target content : String) (h : pyUpper target = "US") :
    filter_content content target = filter_content content "US"
    ∧ filterLines target (pySplitNl content) = filterLines "US" (pySplitNl content) := by
  have hm : ∀ line, lineMatches target line = lineMatches "US" line := by
    intro line
    unfold lineMatches
    rw [h]
    have h2 : pyUpper "US" = "US" := by decide
    rw [h2]
    simp
  have hfl : ∀ ls, filterLines target ls = filterLines "US" ls := by
    intro ls
    induction ls with
    | nil => rfl
    | cons l rest ih =>
      simp only [filterLines]
      rw [ih, hm l]
  exact ⟨by unfold filter_content; rw [hfl], hfl (pySplitNl content)⟩

/-- C10 witness: target "uS" filters a long-form synonym line exactly like
target "US". -/
theorem c10_witness :
    filter_content "ClientGeoCountry: United States of America" "uS"
      = filter_content "ClientGeoCountry: United States of America" "US"
    ∧ filterLines "uS" (pySplitNl "ClientGeoCountry: United States of America")
      = filterLines "US" (pySplitNl "ClientGeoCountry: United States of America") :=
  c10_thm "uS" "ClientGeoCountry: United States of America" (by decide)

theorem filterLines_spec (country : String) (ls : List String) :
    filterLines country ls
      = (ls.filter (fun l => isBlankLine l || lineMatches country l),
         ls.countP (fun l => !isBlankLine l && lineMatches country l),
         ls.countP (fun l => !isBlankLine l && !lineMatches country l),
         ls.countP (fun l => !isBlankLine l)) := by
  induction ls with
  | nil => rfl
  | cons l rest ih =>
    simp only [filterLines, ih, List.filter_cons, List.countP_cons]
    cases hb : isBlankLine l <;> cases hm : lineMatches country l <;> simp [hb, hm]

theorem countP_split {α : Type} (p q : α → Bool) (l : List α) :
    l.countP (fun a => p a && q a) + l.countP (fun a => p a && !q a) = l.countP p := by
  induction l with
  | nil => rfl
  | cons a t ih =>
    simp only [List.countP_cons]
    cases hp : p a <;> cases hq : q a <;> simp [hp, hq] <;> omega

theorem filter_content_pair (content country : String) :
    filter_content content country
      = (joinNl ((pySplitNl content).filter
            (fun l => isBlankLine l || lineMatches country l)),
         (pySplitNl content).countP
            (fun l => !isBlankLine l && lineMatches country l)) := by
  unfold filter_content
  rw [filterLines_spec]

/-- C8: a blank (whitespace-only or empty) line is always retained and
never counted: the retained line sequence is exactly the stable filter of
the input lines by "blank or matching", so blank lines keep their original
positions relative to their non-blank neighbours and retained non-blank
lines keep their order; the blank-line count is preserved, and the kept
and removed counts together count exactly the non-blank lines. -/
theorem c8_thm (content country : String) :
    (filterLines country (pySplitNl content)).1
      = (pySplitNl content).filter (fun l => isBlankLine l || lineMatches country l)
    ∧ ((filterLines country (pySplitNl content)).1).countP (fun l => isBlankLine l)
      = (pySplitNl content).countP (fun l => isBlankLine l)
    ∧ (filterLines country (pySplitNl content)).2.1
        + (filterLines country (pySplitNl content)).2.2.1
      = (pySplitNl content).countP (fun l => !isBlankLine l) := by
  rw [filterLines_spec]
  refine ⟨rfl, ?_, ?_⟩
  · rw [List.countP_filter]
    apply List.countP_congr
    intro a _
    cases hb : isBlankLine a <;> simp [hb]
  · exact countP_split (fun l => !isBlankLine l) (fun l => lineMatches country l)
      (pySplitNl content)

theorem splitNlChars_ne_nil (cs : List Char) : splitNlChars cs ≠ [] := by
  cases cs with
  | nil => simp [splitNlChars]
  | cons c t =>
    unfold splitNlChars
    by_cases h : c = '\n'
    · simp [h]
    · simp only [if_neg h]
      cases splitNlChars t <;> simp

theorem splitNlChars_no_newline (cs : List Char) (h : '\n' ∉ cs) :
    splitNlChars cs = [cs] := by
  induction cs with
  | nil => rfl
  | cons c t ih =>
    have hc : c ≠ '\n' := fun he => h (he ▸ List.mem_cons_self c t)
    have ht : '\n' ∉ t := fun hm => h (List.mem_cons_of_mem c hm)
    unfold splitNlChars
    rw [if_neg hc, ih ht]

theorem splitNlChars_append (a b : List Char) (h : '\n' ∉ a) :
    splitNlChars (a ++ '\n' :: b) = a :: splitNlChars b := by
  induction a with
  | nil => simp [splitNlChars]
  | cons c t ih =>
    have hc : c ≠ '\n' := fun he => h (he ▸ List.mem_cons_self c t)
    have ht : '\n' ∉ t := fun hm => h (List.mem_cons_of_mem c hm)
    rw [List.cons_append]
    conv_lhs => rw [splitNlChars]
    rw [if_neg hc, ih ht]

theorem mem_splitNlChars_no_newline (cs : List Char) (l : List Char)
    (hl : l ∈ splitNlChars cs) : '\n' ∉ l := by
  induction cs generalizing l with
  | nil =>
    simp [splitNlChars] at hl
    subst hl
    simp
  | cons c t ih =>
    unfold splitNlChars at hl
    by_cases hc : c = '\n'
    · rw [if_pos hc] at hl
      rcases List.mem_cons.1 hl with hl | hl
      · subst hl; simp
      · exact ih l hl
    · rw [if_neg hc] at hl
      cases hr : splitNlChars t with
      | nil => exact absurd hr (splitNlChars_ne_nil t)
      | cons h0 t0 =>
        rw [hr] at hl
        rcases List.mem_cons.1 hl with hl | hl
        · subst hl
          intro hm
          rcases List.mem_cons.1 hm with hm | hm
          · exact hc hm.symm
          · exact ih h0 (hr ▸ List.mem_cons_self h0 t0) hm
        · exact ih l (hr ▸ List.mem_cons_of_mem h0 hl)

theorem pySplitNl_no_newline (content : String) (l : String)
    (hl : l ∈ pySplitNl content) : '\n' ∉ l.data := by
  unfold pySplitNl at hl
  rcases List.mem_map.1 hl with ⟨piece, hp, he⟩
  rw [← he]
  exact mem_splitNlChars_no_newline content.data piece hp

theorem joinNl_data_cons (s s' : String) (rest : List String) :
    (joinNl (s :: s' :: rest)).data = s.data ++ '\n' :: (joinNl (s' :: rest)).data := by
  show (s ++ "\n" ++ joinNl (s' :: rest)).data = _
  rw [String.data_append, String.data_append, List.append_assoc]
  rfl

theorem pySplitNl_joinNl (ls : List String) (h : ∀ l ∈ ls, '\n' ∉ l.data)
    (hne : ls ≠ []) : pySplitNl (joinNl ls) = ls := by
  induction ls with
  | nil => exact absurd rfl hne
  | cons s rest ih =>
    cases rest with
    | nil =>
      show (splitNlChars (joinNl [s]).data).map String.mk = [s]
      rw [show joinNl [s] = s from rfl,
        splitNlChars_no_newline s.data (h s (List.mem_cons_self s []))]
      rfl
    | cons s' rest' =>
      show (splitNlChars (joinNl (s :: s' :: rest')).data).map String.mk = _
      rw [joinNl_data_cons,
        splitNlChars_append s.data _ (h s (List.mem_cons_self s (s' :: rest')))]
      have ih' := ih (fun l hl => h l (List.mem_cons_of_mem s hl)) (by simp)
      unfold pySplitNl at ih'
      simp only [List.map_cons, mk_data, ih']

theorem filter_content_empty (country : String) :
    filter_content "" country = ("", 0) := by
  unfold filter_content
  rw [show pySplitNl "" = [""] from rfl]
  simp only [filterLines, show isBlankLine "" = true from rfl]
  rfl

/-- C9: filtering is idempotent: re-filtering the retained text of a
previous pass with the same target returns the same retained text and the
same kept count, and the second pass removes nothing. -/
theorem c9_thm (content country : String) :
    filter_content (filter_content content country).1 country
      = ((filter_content content country).1, (filter_content content country).2)
    ∧ (filterLines country (pySplitNl (filter_content content country).1)).2.2.1 = 0 := by
  by_cases hout : (pySplitNl content).filter
      (fun l => isBlankLine l || lineMatches country l) = []
  · have hk : (pySplitNl content).countP
        (fun l => !isBlankLine l && lineMatches country l) = 0 := by
      rw [List.countP_eq_zero]
      intro a ha hq
      refine (List.filter_eq_nil_iff.mp hout a ha) ?_
      cases hb : isBlankLine a <;> cases hm : lineMatches country a <;>
        simp [hb, hm] at hq ⊢
    have h1 : filter_content content country = ("", 0) := by
      rw [filter_content_pair, hout, hk]
      rfl
    rw [h1]
    refine ⟨filter_content_empty country, ?_⟩
    show (filterLines country [""]).2.2.1 = 0
    simp only [filterLines, show isBlankLine "" = true from rfl]
    rfl
  · have hnonl : ∀ l ∈ (pySplitNl content).filter
        (fun l => isBlankLine l || lineMatches country l), '\n' ∉ l.data :=
      fun l hl => pySplitNl_no_newline content l (List.mem_of_mem_filter hl)
    have hsplit := pySplitNl_joinNl _ hnonl hout
    have hself : ((pySplitNl content).filter
          (fun l => isBlankLine l || lineMatches country l)).filter
          (fun l => isBlankLine l || lineMatches country l)
        = (pySplitNl content).filter
          (fun l => isBlankLine l || lineMatches country l) := by
      rw [List.filter_eq_self]
      intro a ha
      simpa using List.of_mem_filter ha
    have hkept : ((pySplitNl content).filter
          (fun l => isBlankLine l || lineMatches country l)).countP
          (fun l => !isBlankLine l && lineMatches country l)
        = (pySplitNl content).countP
          (fun l => !isBlankLine l && lineMatches country l) := by
      rw [List.countP_filter]
      apply List.countP_congr
      intro a _
      cases hb : isBlankLine a <;> cases hm : lineMatches country a <;> simp [hb, hm]
    have hrem : ((pySplitNl content).filter
          (fun l => isBlankLine l || lineMatches country l)).countP
          (fun l => !isBlankLine l && !lineMatches country l) = 0 := by
      rw [List.countP_filter, List.countP_eq_zero]
      intro a _
      cases hb : isBlankLine a <;> cases hm : lineMatches country a <;> simp [hb, hm]
    constructor
    · rw [filter_content_pair content country]
      simp only
      rw [filter_content_pair, hsplit, hself, hkept]
    · rw [filter_content_pair content country]
      simp only
      rw [filterLines_spec, hsplit]
      exact hrem

/-- C3 counterexample: a per-object storage read error produces from
`process_file` the very same outcome value as a guard rejection (`false`
with no writes) — not a distinct Failed outcome — and the batch loop
tallies the error object under skipped while the failed counter stays 0. -/
theorem c3_counterexample :
    process_file witLibs "bad.gz" (.error "ClientError") "US" 1 0 (.ok [])
      = process_file witLibs "small" (.ok (witEnc "no target here")) "US" 1 0 (.ok [])
    ∧ process_all_files_loop witLibs "US" 1 0
        [⟨"bad.gz", .error "ClientError", .ok []⟩,
         ⟨"small", .ok (witEnc "no target here"), .ok []⟩]
      = (0, 2, 0, [("bad.gz", false), ("small", false)]) :=
  ⟨by decide, by decide⟩

/-- C3 (amended): every per-object error is caught inside `process_file`
and converted into the same `false` return used for a guard skip, so no
error ever aborts the batch loop: every enumerated object contributes
exactly one result entry and one tally increment; but the summary does not
separate errors from skips — the failed counter is never incremented
(successful + skipped = total objects, failed = 0). -/
theorem c3_amended_thm (lib : PyLibs) (country_to_keep : String)
    (min_data_lines now : Nat) (files : List BatchFile) :
    (process_all_files_loop lib country_to_keep min_data_lines now files).2.2.1 = 0
    ∧ (process_all_files_loop lib country_to_keep min_data_lines now files).1
        + (process_all_files_loop lib country_to_keep min_data_lines now files).2.1
      = files.length
    ∧ (process_all_files_loop lib country_to_keep min_data_lines now files).2.2.2.length
      = files.length := by
  induction files with
  | nil => exact ⟨rfl, rfl, rfl⟩
  | cons f fs ih =>
    obtain ⟨h1, h2, h3⟩ := ih
    simp only [process_all_files_loop]
    cases hok : (process_file lib f.key f.rawResult country_to_keep min_data_lines now
        f.rereadResult).1 <;>
      refine ⟨?_, ?_, ?_⟩ <;> simp [hok, h1, h3] <;> omega

end S3Cleanup
